import Mathlib

/-!
Verification of the About Me AI avatar (`vpiotr.py`).

The Python module is shallowly embedded: the document loader, the push
notifier, the two tool functions, the dynamic tool dispatch
(`handle_tool_call`), the system-prompt builder and the chat loop are
translated into executable Lean definitions, and the specification's
claims are proved or refuted against them.

Modelling conventions:
* Python side effects (each `push` notification, i.e. each
  `requests.post` to Pushover) are made explicit: effectful functions
  return a `List String` of pushed message bodies next to their value.
* Python exceptions are modelled with `Except PyError`.
* `json.loads(tool_call.function.arguments)` is an external library
  call; a `ToolCall` therefore carries the parse result directly:
  `some args` (a JSON object with string values, as the declared
  schemas prescribe) when the wire string is valid JSON, `none` when
  `json.loads` would raise `JSONDecodeError`.
* The external model API is modelled as a function from the current
  message list to a response (termination reason, content, tool calls),
  and the unbounded `while` loop of `chat` runs on explicit fuel:
  result `Except.ok none` means the fuel ran out with the loop still
  going, so `Except.ok none` for every fuel value is non-termination.
-/

/-- An ASCII apostrophe, used when quoting the source's literal text. -/
def apos : String := "\x27"

/-- `needle.isPrefixOf` tested at every suffix: Boolean substring test
on character lists. -/
def infixAux (needle : List Char) : List Char → Bool
  | [] => List.isPrefixOf needle []
  | c :: rest => List.isPrefixOf needle (c :: rest) || infixAux needle rest

/-- Python's `sub in s`: `sub` occurs as a contiguous substring of `s`. -/
def strContains (s sub : String) : Bool := infixAux sub.data s.data

/-- Python's `str.endswith`. -/
def pyEndsWith (s suffix : String) : Bool := List.isSuffixOf suffix.data s.data

/-- Python's `name.split(".")[0]`: the portion of a filename before its
first dot (the whole name when there is no dot). -/
def baseName (s : String) : String := String.mk (s.data.takeWhile (fun c => c ≠ '.'))

/-- Lookup in a Python dict modelled as an association list. -/
def dictGet (k : String) : List (String × String) → Option String
  | [] => none
  | (k2, v) :: rest => if k2 = k then some v else dictGet k rest

/-- Python dict assignment `d[k] = v`: update the existing entry in
place, otherwise append a new one (insertion order is preserved, which
is what `for information in self.about_me` later iterates in). -/
def dictInsert (k v : String) (d : List (String × String)) : List (String × String) :=
  match dictGet k d with
  | some _ => d.map (fun p => if p.1 = k then (k, v) else p)
  | none => d ++ [(k, v)]

/-- What reading a directory entry of `about_me/` can yield:
the per-page `extract_text()` results when opened with `PdfReader`,
the full UTF-8 decoded content when opened as text, or something that
is neither (never opened by the loader). -/
inductive FileData where
  | pdfFile (pages : List String)
  | txtFile (content : String)
  | otherFile
  deriving DecidableEq

/-- One entry of `os.listdir("about_me")` together with the file's data. -/
structure DirEntry where
  name : String
  data : FileData
  deriving DecidableEq

/-- Errors the loader can raise: `PdfReader` on a non-PDF payload, or a
UTF-8 decode failure on a non-text payload. -/
inductive LoadError where
  | pdfReadError
  | txtDecodeError
  deriving DecidableEq

/-- The filename has one of the two recognized extensions. -/
def recognizedB (e : DirEntry) : Bool :=
  pyEndsWith e.name ".pdf" || pyEndsWith e.name ".txt"

/-- The entry's payload matches what its extension makes the loader do
with it (a `.pdf` name holds PDF data, a `.txt` name holds text). -/
def wellFormedEntry (e : DirEntry) : Bool :=
  if pyEndsWith e.name ".pdf" then
    match e.data with
    | .pdfFile _ => true
    | _ => false
  else if pyEndsWith e.name ".txt" then
    match e.data with
    | .txtFile _ => true
    | _ => false
  else true

/-- The text the loader extracts from a recognized, well-formed entry:
`"".join(page.extract_text() for page in reader.pages)` for a PDF,
`f.read()` for a text file. -/
def extractOf (e : DirEntry) : String :=
  if pyEndsWith e.name ".pdf" then
    match e.data with
    | .pdfFile pages => String.join pages
    | _ => ""
  else
    match e.data with
    | .txtFile c => c
    | _ => ""

/-- One iteration of the loader's `for document in files` body. -/
def loadStep (acc : List (String × String)) (e : DirEntry) : Except LoadError (List (String × String)) :=
  if pyEndsWith e.name ".pdf" then
    match e.data with
    | .pdfFile pages => .ok (dictInsert (baseName e.name) (String.join pages) acc)
    | _ => .error .pdfReadError
  else if pyEndsWith e.name ".txt" then
    match e.data with
    | .txtFile c => .ok (dictInsert (baseName e.name) c acc)
    | _ => .error .txtDecodeError
  else .ok acc

/-- The loader's `for` loop over the directory listing. -/
def loadGo (acc : List (String × String)) : List DirEntry → Except LoadError (List (String × String))
  | [] => .ok acc
  | e :: rest =>
    match loadStep acc e with
    | .error x => .error x
    | .ok acc2 => loadGo acc2 rest

/-- `AboutMe.__init__`'s document-loading loop: build `self.about_me`
from the listing of the `about_me` directory. -/
def loadAboutMe (dir : List DirEntry) : Except LoadError (List (String × String)) :=
  loadGo [] dir

/-- `push(message)`: logs and POSTs the message to the Pushover
endpoint (fire and forget) and returns Python `None`.  The sent message
is recorded as the side-effect component. -/
def push (message : String) : List String := [message]

/-- The fixed part of the `record_user_details` notification text, up
to and including the marker that precedes the summary field:
`f"New user provided e-mail address: {name} in conversation
{conversation_id}\nEmail: {email}\nNotes: {notes}\ndetails (PII
removed): "`. -/
def recordUserHeader (name conversation_id email notes : String) : String :=
  "New user provided e-mail address: " ++ name ++ " in conversation " ++ conversation_id ++
    "\nEmail: " ++ email ++ "\nNotes: " ++ notes ++ "\ndetails (PII removed): "

/-- A Python value returned by a dispatched callable: `None`, or a
dict with string keys and string values (the tool acknowledgments). -/
inductive PyVal where
  | noneVal
  | dict (entries : List (String × String))
  deriving DecidableEq

/-- Tool function `record_user_details`: pushes one notification built
from its arguments and returns `{"recorded": "ok"}`.  The Python
parameter defaults (`name="Name not provided"`, `notes="Not
provided"`, `details=""`) are applied at call-binding time by
`bindRecordUserDetails` below. -/
def record_user_details (conversation_id email name notes details : String) : List String × PyVal :=
  (push ("New user provided e-mail address: " ++ name ++ " in conversation " ++ conversation_id ++
      "\nEmail: " ++ email ++ "\nNotes: " ++ notes ++ "\ndetails (PII removed): " ++ details),
    .dict [("recorded", "ok")])

/-- Tool function `record_details`: pushes one notification built from
its arguments and returns `{"recorded": "ok"}`.  The Python default
`questions=""` is applied at call-binding time. -/
def record_details (conversation_id details questions : String) : List String × PyVal :=
  (push ("Details of chat in conversation " ++ conversation_id ++
      "\nUnanswered questions: " ++ questions ++ "\ndetails (PII removed): " ++ details),
    .dict [("recorded", "ok")])

/-- The name and required-parameter list of a declared tool schema. -/
structure ToolSchema where
  name : String
  required : List String

/-- Schema `record_user_details_json`. -/
def record_user_details_json : ToolSchema :=
  { name := "record_user_details", required := ["conversation_id", "email", "details"] }

/-- Schema `record_details_json`. -/
def record_details_json : ToolSchema :=
  { name := "record_details", required := ["conversation_id", "details"] }

/-- The `tools` list registered with the model. -/
def tools : List ToolSchema := [record_user_details_json, record_details_json]

/-- The names of the registered tools. -/
def registeredToolNames : List String := tools.map (fun t => t.name)

/-- Python exceptions that dispatch can raise: `json.JSONDecodeError`
from `json.loads`, `TypeError` from keyword-argument binding, and
`TypeError` from calling a non-callable global. -/
inductive PyError where
  | jsonDecodeError
  | typeErrorBadArgs
  | typeErrorNotCallable
  deriving DecidableEq

/-- Escape one character the way `json.dumps` does for the values that
occur in this program (backslash, double quote, newline; every value
actually serialized here is one of the fixed ASCII words below). -/
def jsonEscapeChar (c : Char) : String :=
  if c = '\\' then "\\\\"
  else if c = '\x22' then "\\\x22"
  else if c = '\n' then "\\n"
  else String.mk [c]

/-- String escaping as performed by `json.dumps`. -/
def jsonEscape (s : String) : String := String.join (s.data.map jsonEscapeChar)

/-- `json.dumps` on the values produced by dispatched callables, with
the default separators: `None ↦ null`, dicts with `", "` between
entries and `": "` between key and value. -/
def jsonDumps : PyVal → String
  | .noneVal => "null"
  | .dict entries =>
    "\x7b" ++
      String.intercalate ", "
        (entries.map (fun p => "\x22" ++ jsonEscape p.1 ++ "\x22: \x22" ++ jsonEscape p.2 ++ "\x22")) ++
      "\x7d"

/-- What a module-global name can resolve to when `handle_tool_call`
does `globals().get(tool_name)`: one of the three module-level
functions, or some other module global (imported modules and helpers,
the two schema dicts, the `tools` list, the Pushover configuration
strings, the `AboutMe` class, the dunder entries).  All of the latter
are truthy, so the `if tool` guard takes the call path for them, and
calling them with the tool keyword arguments raises `TypeError`. -/
inductive PyGlobal where
  | fnPush
  | fnRecordUserDetails
  | fnRecordDetails
  | otherGlobal
  deriving DecidableEq

/-- The module-global names of `vpiotr.py` other than the three
functions (imports, configuration, schemas, class, dunders;
`about_me` exists once the `__main__` block has run). -/
def otherGlobalNames : List String :=
  ["load_dotenv", "OpenAI", "json", "os", "requests", "random", "PdfReader", "gr",
    "pushover_user", "pushover_token", "pushover_url",
    "record_user_details_json", "record_details_json", "tools", "AboutMe", "about_me",
    "__name__", "__doc__", "__package__", "__loader__", "__spec__", "__file__",
    "__builtins__", "__annotations__"]

/-- `globals().get(tool_name)`. -/
def globalsGet (name : String) : Option PyGlobal :=
  if name = "push" then some .fnPush
  else if name = "record_user_details" then some .fnRecordUserDetails
  else if name = "record_details" then some .fnRecordDetails
  else if otherGlobalNames.contains name then some .otherGlobal
  else none

/-- The keyword arguments bound by a `record_user_details(**arguments)`
call. -/
structure RUDArgs where
  conversation_id : String
  email : String
  name : String
  notes : String
  details : String

/-- The keyword arguments bound by a `record_details(**arguments)`
call. -/
structure RDArgs where
  conversation_id : String
  details : String
  questions : String

/-- Python keyword binding for
`record_user_details(conversation_id, email, name="Name not provided",
notes="Not provided", details="")`: every supplied key must name a
parameter and the two parameters without defaults must be supplied,
otherwise the call raises `TypeError`. -/
def bindRecordUserDetails (args : List (String × String)) : Except PyError RUDArgs :=
  if args.all (fun p => ["conversation_id", "email", "name", "notes", "details"].contains p.1) then
    match dictGet "conversation_id" args, dictGet "email" args with
    | some cid, some em =>
      .ok ⟨cid, em, (dictGet "name" args).getD "Name not provided",
        (dictGet "notes" args).getD "Not provided", (dictGet "details" args).getD ""⟩
    | _, _ => .error .typeErrorBadArgs
  else .error .typeErrorBadArgs

/-- Python keyword binding for
`record_details(conversation_id, details, questions="")`. -/
def bindRecordDetails (args : List (String × String)) : Except PyError RDArgs :=
  if args.all (fun p => ["conversation_id", "details", "questions"].contains p.1) then
    match dictGet "conversation_id" args, dictGet "details" args with
    | some cid, some dt => .ok ⟨cid, dt, (dictGet "questions" args).getD ""⟩
    | _, _ => .error .typeErrorBadArgs
  else .error .typeErrorBadArgs

/-- Python keyword binding for `push(message)`. -/
def bindPush (args : List (String × String)) : Except PyError String :=
  if args.all (fun p => p.1 = "message") then
    match dictGet "message" args with
    | some m => .ok m
    | none => .error .typeErrorBadArgs
  else .error .typeErrorBadArgs

/-- `tool(**arguments)` for a truthy global found by `globals().get`:
bind the keyword arguments and run the callable, collecting its push
side effects and return value. -/
def invokeGlobal (g : PyGlobal) (args : List (String × String)) : List String × Except PyError PyVal :=
  match g with
  | .fnPush =>
    match bindPush args with
    | .error er => ([], .error er)
    | .ok m => (push m, .ok .noneVal)
  | .fnRecordUserDetails =>
    match bindRecordUserDetails args with
    | .error er => ([], .error er)
    | .ok a =>
      let r := record_user_details a.conversation_id a.email a.name a.notes a.details
      (r.1, .ok r.2)
  | .fnRecordDetails =>
    match bindRecordDetails args with
    | .error er => ([], .error er)
    | .ok a =>
      let r := record_details a.conversation_id a.details a.questions
      (r.1, .ok r.2)
  | .otherGlobal => ([], .error .typeErrorNotCallable)

/-- One tool-call request from a model response: the correlation id
`tool_call.id`, the requested `tool_call.function.name`, and the
result of `json.loads(tool_call.function.arguments)` (`none` when the
arguments string is not valid JSON, in which case `json.loads`
raises). -/
structure ToolCall where
  id : String
  name : String
  arguments : Option (List (String × String))
  deriving DecidableEq

/-- A message of the conversation history. -/
inductive Msg where
  | system (content : String)
  | user (content : String)
  | assistant (content : String) (tool_calls : List ToolCall)
  | tool (content : String) (tool_call_id : String)
  deriving DecidableEq

/-- The body of `handle_tool_call`'s loop for one tool call: parse the
arguments (raising on invalid JSON), look the name up in the module
globals, call the resolved object — or produce the empty result `{}`
when the name resolves to nothing — and wrap the `json.dumps` of the
result as a tool-role message tagged with the call's id. -/
def dispatchOne (tc : ToolCall) : List String × Except PyError Msg :=
  match tc.arguments with
  | none => ([], .error .jsonDecodeError)
  | some args =>
    match globalsGet tc.name with
    | none => ([], .ok (Msg.tool (jsonDumps (.dict [])) tc.id))
    | some g =>
      match invokeGlobal g args with
      | (ps, .error er) => (ps, .error er)
      | (ps, .ok v) => (ps, .ok (Msg.tool (jsonDumps v) tc.id))

/-- `AboutMe.handle_tool_call`: dispatch each requested tool call in
order, collecting one tool-role result message per call; an exception
aborts the loop (push notifications already sent are kept). -/
def handle_tool_call : List ToolCall → List String × Except PyError (List Msg)
  | [] => ([], .ok [])
  | tc :: rest =>
    match dispatchOne tc with
    | (ps, .error er) => (ps, .error er)
    | (ps, .ok m) =>
      match handle_tool_call rest with
      | (ps2, .error er) => (ps ++ ps2, .error er)
      | (ps2, .ok ms) => (ps ++ ps2, .ok (m :: ms))

/-- One response from the external model API
(`response.choices[0]`): the termination reason
(`finish_reason`), the message content, and the requested tool calls. -/
structure ModelResponse where
  finish_reason : String
  content : String
  tool_calls : List ToolCall

/-- The `AboutMe` instance state set up by `__init__`: the identity
strings, the conversation id, and the loaded documents. -/
structure AboutMe where
  first_name : String
  last_name : String
  conversation_id : String
  about_me : List (String × String)

/-- `AboutMe.__init__`: the identity is fixed, the conversation id is
`str(random.randint(1, 1000))` — the drawn integer `r` is a parameter
here — and the documents are loaded from the directory listing. -/
def AboutMe.init (r : Nat) (dir : List DirEntry) : Except LoadError AboutMe :=
  match loadAboutMe dir with
  | .error er => .error er
  | .ok docs =>
    .ok { first_name := "Piotr", last_name := "Kowalczyk",
          conversation_id := toString r, about_me := docs }

/-- The fixed persona/policy text of the system prompt
(the f-string of `AboutMe.system_prompt`, verbatim). -/
def promptHeader (first last : String) : String :=
  "\nYou are acting as " ++ first ++ " " ++ last ++
    " and use first name when intrducing yourself.\nYou are answering questions on " ++
    first ++ " " ++ last ++ apos ++
    "s website — particularly those related to his career, skills, background, professional experience, and selected private information.\n\nYou have access to several documents that contain information about " ++
    first ++ " " ++ last ++
    ". Each document is named to reflect its content. Use these documents as your sole source of truth for answering questions. Reword document content naturally — make it sound human, not robotic.\n\n---\n\nYou will be provided a conversation_id as context (hardcoded by backend). Use this ID in every function call.\n\n### Core Logic\n\n#### Conversation Starts:\nWhen you answer the user" ++
    apos ++
    "s first message, call the `record_details` tool with a PII-free summary using the same ID. Make sure you caled this function directly after first user" ++
    apos ++
    "s message!\n\n#### Detecting Conversation End:\nPay attention to signs that the conversation is ending, such as:\n- The user says goodbye (e.g., " ++
    apos ++ "bye" ++ apos ++ ", " ++ apos ++ "thanks, that" ++ apos ++ "s all" ++ apos ++
    ", " ++ apos ++ "talk later" ++ apos ++
    ")\n- Mentions of ending the chat/session\n- You think the ocnversation is ended\n**If any of these conditions are met, treat the conversation as ended.**\n\n### Calling Tools\n- If the user provided an email address, immediately call `record_user_details` with an expanded, PII-free summary of the entire conversation.\n- If the conversation is ended, immediately call `record_details` with an expanded, PII-free summary of the conversation.\n\n---\n\n### Private Information\n\n- If the requested private information exists in the documents, you may share it.\n- If it does not exist in the documents, respond that the information is private.\n\n---\n\n### Professional / Public Information\n\n- If the requested professional or public info is not in the documents:\n  - Offer to collect the user" ++
    apos ++
    "s email.\n  - Let them know that the real " ++ first ++ " " ++ last ++
    " will follow up personally.\n  - When the conversation ends, record everything appropriately (see above).\n\n---\n\n### Behavioral Guidelines\n\n- Maintain a professional, friendly, human-like tone.\n- Do not display document text verbatim — always rephrase naturally.\n- Keep the conversation focused on " ++
    first ++ " " ++ last ++
    ".\n- Remove all user PII (e.g., name, email, phone) from summaries used in logging tools.\n- Stay in character as v" ++
    first ++ ", the AI avatar of " ++ first ++ " " ++ last ++ ".\n"

/-- One appended document section:
`f"\n\n## {information}:\n{self.about_me[information]}\n"`. -/
def docSection (kv : String × String) : String :=
  "\n\n## " ++ kv.1 ++ ":\n" ++ kv.2 ++ "\n"

/-- The concatenation of the document sections in insertion order. -/
def docSections : List (String × String) → String
  | [] => ""
  | kv :: rest => docSection kv ++ docSections rest

/-- `AboutMe.system_prompt`: the persona/policy text, then one section
per loaded document, then `f"conversation_id = {self.conversation_id}"`. -/
def AboutMe.system_prompt (a : AboutMe) : String :=
  (a.about_me.foldl (fun acc kv => acc ++ docSection kv)
      (promptHeader a.first_name a.last_name)) ++
    ("conversation_id = " ++ a.conversation_id)

/-- The `while not done` loop of `AboutMe.chat`, on explicit fuel.
Each iteration asks the model for a response on the current messages;
on termination reason `"tool_calls"` it dispatches the requested calls,
appends the assistant message and the tool-result messages, and loops;
on any other termination reason it returns the response's content.
`Except.ok none` means the fuel was exhausted with the loop still
running; a dispatch exception propagates out of `chat`. -/
def chatLoop (model : List Msg → ModelResponse) : Nat → List Msg → List String × Except PyError (Option String)
  | 0, _ => ([], .ok none)
  | n + 1, msgs =>
    let r := model msgs
    if r.finish_reason = "tool_calls" then
      match handle_tool_call r.tool_calls with
      | (ps, .error er) => (ps, .error er)
      | (ps, .ok results) =>
        let rest := chatLoop model n (msgs ++ [Msg.assistant r.content r.tool_calls] ++ results)
        (ps ++ rest.1, rest.2)
    else ([], .ok (some r.content))

/-- `AboutMe.chat(message, history)`: run the loop on
`[{"role": "system", ...}] + history + [{"role": "user", ...}]`. -/
def AboutMe.chat (a : AboutMe) (model : List Msg → ModelResponse) (fuel : Nat)
    (message : String) (history : List Msg) : List String × Except PyError (Option String) :=
  chatLoop model fuel ([Msg.system a.system_prompt] ++ history ++ [Msg.user message])

/-! ### Helper lemmas -/

theorem isPrefixOf_self_append (p t : List Char) : List.isPrefixOf p (p ++ t) = true := by
  induction p with
  | nil => simp [List.isPrefixOf]
  | cons c p ih => simp [List.isPrefixOf, ih]

theorem isPrefixOf_append_right (p s t : List Char) (h : List.isPrefixOf p s = true) :
    List.isPrefixOf p (s ++ t) = true := by
  induction p generalizing s with
  | nil => simp [List.isPrefixOf]
  | cons c p ih =>
    cases s with
    | nil => simp [List.isPrefixOf] at h
    | cons d s =>
      simp only [List.isPrefixOf, Bool.and_eq_true] at h
      simp only [List.cons_append, List.isPrefixOf, Bool.and_eq_true]
      exact ⟨h.1, ih s h.2⟩

theorem infixAux_nil (s : List Char) : infixAux [] s = true := by
  cases s <;> simp [infixAux, List.isPrefixOf]

theorem infixAux_of_isPrefixOf (p s : List Char) (h : List.isPrefixOf p s = true) :
    infixAux p s = true := by
  cases s with
  | nil => simpa [infixAux] using h
  | cons c rest => simp [infixAux, h]

theorem infixAux_cons (p s : List Char) (c : Char) (h : infixAux p s = true) :
    infixAux p (c :: s) = true := by
  simp [infixAux, h]

theorem infixAux_append_left (p a s : List Char) (h : infixAux p s = true) :
    infixAux p (a ++ s) = true := by
  induction a with
  | nil => simpa using h
  | cons c a ih => exact infixAux_cons p (a ++ s) c ih

theorem infixAux_append_right (p s t : List Char) (h : infixAux p s = true) :
    infixAux p (s ++ t) = true := by
  induction s with
  | nil =>
    have hp : List.isPrefixOf p ([] : List Char) = true := by simpa [infixAux] using h
    cases p with
    | nil => exact infixAux_nil t
    | cons c p => simp [List.isPrefixOf] at hp
  | cons c s ih =>
    simp only [infixAux, Bool.or_eq_true] at h
    rcases h with h | h
    · exact infixAux_of_isPrefixOf _ _ (isPrefixOf_append_right p (c :: s) t h)
    · exact infixAux_cons p (s ++ t) c (ih h)

theorem strContains_refl (p : String) : strContains p p = true := by
  have := isPrefixOf_self_append p.data []
  simp only [List.append_nil] at this
  exact infixAux_of_isPrefixOf p.data p.data this

theorem strContains_appendL (a b p : String) (h : strContains b p = true) :
    strContains (a ++ b) p = true := by
  simp only [strContains, String.data_append]
  exact infixAux_append_left p.data a.data b.data h

theorem strContains_appendR (a b p : String) (h : strContains a p = true) :
    strContains (a ++ b) p = true := by
  simp only [strContains, String.data_append]
  exact infixAux_append_right p.data a.data b.data h

theorem dictGet_append (k : String) (d d2 : List (String × String)) :
    dictGet k (d ++ d2) = match dictGet k d with | some v => some v | none => dictGet k d2 := by
  induction d with
  | nil => simp [dictGet]
  | cons p d ih =>
    obtain ⟨k2, v⟩ := p
    by_cases hk : k2 = k
    · simp [dictGet, hk]
    · simp [dictGet, hk, ih]

theorem dictGet_append_of_none (k : String) (d d2 : List (String × String))
    (h : dictGet k d = none) : dictGet k (d ++ d2) = dictGet k d2 := by
  rw [dictGet_append, h]

theorem dictGet_append_of_some (k : String) (d d2 : List (String × String)) (v : String)
    (h : dictGet k d = some v) : dictGet k (d ++ d2) = some v := by
  rw [dictGet_append, h]

theorem dictGet_singleton_self (k v : String) : dictGet k [(k, v)] = some v := by
  simp [dictGet]

theorem dictGet_singleton_ne (k b v : String) (h : b ≠ k) : dictGet k [(b, v)] = none := by
  simp [dictGet, h]

theorem dictInsert_fresh (k v : String) (d : List (String × String))
    (h : dictGet k d = none) : dictInsert k v d = d ++ [(k, v)] := by
  simp [dictInsert, h]

theorem loadStep_recognized (acc : List (String × String)) (e : DirEntry)
    (hw : wellFormedEntry e = true) (hr : recognizedB e = true) :
    loadStep acc e = .ok (dictInsert (baseName e.name) (extractOf e) acc) := by
  unfold loadStep extractOf
  unfold wellFormedEntry at hw
  unfold recognizedB at hr
  cases hpdf : pyEndsWith e.name ".pdf" with
  | true => cases hd : e.data <;> simp_all
  | false =>
    cases htxt : pyEndsWith e.name ".txt" with
    | true => cases hd : e.data <;> simp_all
    | false => simp_all

theorem loadStep_unrecognized (acc : List (String × String)) (e : DirEntry)
    (hr : recognizedB e = false) : loadStep acc e = .ok acc := by
  unfold loadStep
  unfold recognizedB at hr
  simp only [Bool.or_eq_false_iff] at hr
  simp [hr.1, hr.2]

theorem loadGo_spec (entries : List DirEntry) : ∀ acc : List (String × String),
    (∀ e ∈ entries, wellFormedEntry e = true) →
    (((entries.filter recognizedB).map (fun e => baseName e.name)).Nodup) →
    (∀ e ∈ entries, recognizedB e = true → dictGet (baseName e.name) acc = none) →
    ∃ m, loadGo acc entries = .ok m ∧
      m.map Prod.fst = acc.map Prod.fst ++ (entries.filter recognizedB).map (fun e => baseName e.name) ∧
      (∀ k, (∀ e ∈ entries, recognizedB e = true → baseName e.name ≠ k) →
        dictGet k m = dictGet k acc) ∧
      (∀ e ∈ entries, recognizedB e = true → dictGet (baseName e.name) m = some (extractOf e)) := by
  induction entries with
  | nil =>
    intro acc _ _ _
    exact ⟨acc, rfl, by simp, fun k _ => rfl, by simp⟩
  | cons e rest ih =>
    intro acc hwf hnd hfresh
    cases hrec : recognizedB e with
    | false =>
      have hfil : (e :: rest).filter recognizedB = rest.filter recognizedB :=
        List.filter_cons_of_neg (by simp [hrec])
      rw [hfil] at hnd
      obtain ⟨m, hgo, hkeys, hpres, hval⟩ :=
        ih acc (fun x hx => hwf x (List.mem_cons_of_mem e hx)) hnd
          (fun x hx hr => hfresh x (List.mem_cons_of_mem e hx) hr)
      refine ⟨m, ?_, ?_, ?_, ?_⟩
      · unfold loadGo
        rw [loadStep_unrecognized acc e hrec]
        exact hgo
      · rw [hfil]; exact hkeys
      · exact fun k hk => hpres k (fun x hx hr => hk x (List.mem_cons_of_mem e hx) hr)
      · intro x hx hr
        rcases List.mem_cons.mp hx with hx | hx
        · rw [hx] at hr; rw [hr] at hrec; cases hrec
        · exact hval x hx hr
    | true =>
      have hfil : (e :: rest).filter recognizedB = e :: rest.filter recognizedB :=
        List.filter_cons_of_pos hrec
      rw [hfil, List.map_cons, List.nodup_cons] at hnd
      obtain ⟨hnotmem, hndrest⟩ := hnd
      have hb : dictGet (baseName e.name) acc = none := hfresh e (List.mem_cons_self e rest) hrec
      have hstep : loadStep acc e = .ok (acc ++ [(baseName e.name, extractOf e)]) := by
        rw [loadStep_recognized acc e (hwf e (List.mem_cons_self e rest)) hrec,
          dictInsert_fresh _ _ _ hb]
      have hfresh2 : ∀ x ∈ rest, recognizedB x = true →
          dictGet (baseName x.name) (acc ++ [(baseName e.name, extractOf e)]) = none := by
        intro x hx hr
        have hne : baseName e.name ≠ baseName x.name := by
          intro hcontra
          exact hnotmem (hcontra ▸ List.mem_map_of_mem (fun y => baseName y.name)
            (List.mem_filter.mpr ⟨hx, hr⟩))
        rw [dictGet_append_of_none _ _ _ (hfresh x (List.mem_cons_of_mem e hx) hr),
          dictGet_singleton_ne _ _ _ hne]
      obtain ⟨m, hgo, hkeys, hpres, hval⟩ :=
        ih (acc ++ [(baseName e.name, extractOf e)])
          (fun x hx => hwf x (List.mem_cons_of_mem e hx)) hndrest hfresh2
      refine ⟨m, ?_, ?_, ?_, ?_⟩
      · unfold loadGo
        rw [hstep]
        exact hgo
      · rw [hfil, hkeys]; simp
      · intro k hk
        have hbk : baseName e.name ≠ k := hk e (List.mem_cons_self e rest) hrec
        rw [hpres k (fun x hx hr => hk x (List.mem_cons_of_mem e hx) hr),
          dictGet_append, dictGet_singleton_ne _ _ _ hbk]
        cases hacc : dictGet k acc <;> simp
      · intro x hx hr
        rcases List.mem_cons.mp hx with hx | hx
        · subst hx
          have hpre : ∀ y ∈ rest, recognizedB y = true → baseName y.name ≠ baseName x.name := by
            intro y hy hry hcontra
            exact hnotmem (hcontra ▸ List.mem_map_of_mem (fun z => baseName z.name)
              (List.mem_filter.mpr ⟨hy, hry⟩))
          rw [hpres (baseName x.name) hpre,
            dictGet_append_of_none _ _ _ hb, dictGet_singleton_self]
        · exact hval x hx hr

theorem dispatchOne_ok_shape (tc : ToolCall) (ps : List String) (m : Msg)
    (h : dispatchOne tc = (ps, .ok m)) : ∃ c, m = Msg.tool c tc.id := by
  unfold dispatchOne at h
  cases harg : tc.arguments with
  | none => rw [harg] at h; cases h
  | some args =>
    simp only [harg] at h
    cases hg : globalsGet tc.name with
    | none =>
      simp only [hg] at h
      exact ⟨jsonDumps (.dict []), by cases h; rfl⟩
    | some g =>
      simp only [hg] at h
      cases hinv : invokeGlobal g args with
      | mk ps2 r =>
        simp only [hinv] at h
        cases r with
        | error er => cases h
        | ok v => exact ⟨jsonDumps v, by cases h; rfl⟩

theorem handle_tool_call_ok_shape (tcs : List ToolCall) :
    ∀ ps results, handle_tool_call tcs = (ps, .ok results) →
    List.Forall₂ (fun tc m => ∃ c, m = Msg.tool c tc.id) tcs results := by
  induction tcs with
  | nil =>
    intro ps results h
    cases h
    exact List.Forall₂.nil
  | cons tc rest ih =>
    intro ps results h
    unfold handle_tool_call at h
    cases hd : dispatchOne tc with
    | mk ps1 r1 =>
      rw [hd] at h
      cases r1 with
      | error er => cases h
      | ok m =>
        cases hh : handle_tool_call rest with
        | mk ps2 r2 =>
          rw [hh] at h
          cases r2 with
          | error er => cases h
          | ok ms =>
            cases h
            exact List.Forall₂.cons (dispatchOne_ok_shape tc ps1 m hd) (ih ps2 ms hh)

theorem chatLoop_terminal (model : List Msg → ModelResponse) (n : Nat) (msgs : List Msg)
    (h : (model msgs).finish_reason ≠ "tool_calls") :
    chatLoop model (n + 1) msgs = ([], .ok (some (model msgs).content)) := by
  unfold chatLoop
  rw [if_neg h]

theorem chatLoop_tool_step (model : List Msg → ModelResponse) (n : Nat) (msgs : List Msg)
    (ps : List String) (results : List Msg)
    (hfin : (model msgs).finish_reason = "tool_calls")
    (hh : handle_tool_call (model msgs).tool_calls = (ps, .ok results)) :
    chatLoop model (n + 1) msgs =
      (ps ++ (chatLoop model n
          (msgs ++ [Msg.assistant (model msgs).content (model msgs).tool_calls] ++ results)).1,
        (chatLoop model n
          (msgs ++ [Msg.assistant (model msgs).content (model msgs).tool_calls] ++ results)).2) := by
  conv_lhs => rw [chatLoop]
  rw [if_pos hfin, hh]

/-! ### Sample instances used by witnesses and counterexamples -/

/-- An `AboutMe` instance as produced by `AboutMe.init 7 []`. -/
def sampleAbout : AboutMe :=
  { first_name := "Piotr", last_name := "Kowalczyk", conversation_id := "7", about_me := [] }

/-- A model that immediately gives a terminal answer. -/
def stopModel : List Msg → ModelResponse := fun _ => ⟨"stop", "hi", []⟩

/-- A model that requests an unknown-name tool call on every response. -/
def loopModel : List Msg → ModelResponse :=
  fun _ => ⟨"tool_calls", "", [⟨"t1", "no_such_tool", some []⟩]⟩

/-- A listing with one file of each recognized format plus one
unrecognized file. -/
def sampleDir : List DirEntry :=
  [⟨"resume.pdf", .pdfFile ["p1 ", "p2"]⟩, ⟨"bio.txt", .txtFile "hello"⟩,
    ⟨"notes.md", .otherFile⟩]

/-! ### Claims -/

/-- Claim C1, counterexample: the lookup is `globals().get`, not a
lookup among the registered tool names, so the tool-call name `push` —
which is not a registered tool — does not take the empty-result path:
the module helper `push` is invoked (sending a notification) and its
`None` return is serialized as `"null"`, not as the empty result
`"{}"`. -/
theorem claim_C1_counterexample :
    registeredToolNames.contains "push" = false ∧
    handle_tool_call [⟨"t1", "push", some [("message", "hello from tool")]⟩] =
      (["hello from tool"], .ok [Msg.tool "null" "t1"]) ∧
    ("null" : String) ≠ jsonDumps (.dict []) :=
  ⟨rfl, rfl, by decide⟩

/-- Claim C1, amended: for every tool-call request whose arguments
string parses as JSON and whose name is bound to no module global
(`globals().get` returns `None`; the module globals are a strict
superset of the registered tool names), dispatch returns the empty
result `{}` without raising, and the conversation history gains
exactly one tool-role message per request and no notification is
sent. -/
theorem claim_C1_unknown_global_empty_result (tcs : List ToolCall)
    (h : ∀ tc ∈ tcs, tc.arguments.isSome = true ∧ globalsGet tc.name = none) :
    handle_tool_call tcs =
      ([], .ok (tcs.map (fun tc => Msg.tool (jsonDumps (.dict [])) tc.id))) := by
  induction tcs with
  | nil => rfl
  | cons tc rest ih =>
    obtain ⟨hs, hg⟩ := h tc (List.mem_cons_self tc rest)
    obtain ⟨args, harg⟩ := Option.isSome_iff_exists.mp hs
    have hd : dispatchOne tc = ([], .ok (Msg.tool (jsonDumps (.dict [])) tc.id)) := by
      unfold dispatchOne
      simp only [harg, hg]
    unfold handle_tool_call
    rw [hd, ih (fun x hx => h x (List.mem_cons_of_mem tc hx))]
    rfl

/-- Witness for the amended claim C1 at a concrete unknown name. -/
theorem claim_C1_witness :
    handle_tool_call [⟨"t2", "no_such_tool", some []⟩] =
      ([], .ok [Msg.tool (jsonDumps (.dict [])) "t2"]) :=
  claim_C1_unknown_global_empty_result [⟨"t2", "no_such_tool", some []⟩] (by decide)

/-- Claim C9: `json.loads` runs before the `globals()` lookup, so a
tool call whose arguments string is not valid JSON raises
(aborting `handle_tool_call`) regardless of the tool name, and any
dispatch that completes — in particular the silent empty-result path —
had JSON-parseable arguments. -/
theorem claim_C9_parse_before_lookup (tc : ToolCall) :
    (tc.arguments = none →
      ∀ rest, handle_tool_call (tc :: rest) = ([], .error .jsonDecodeError)) ∧
    (∀ ps m, dispatchOne tc = (ps, .ok m) → ∃ args, tc.arguments = some args) := by
  constructor
  · intro h rest
    have hd : dispatchOne tc = ([], .error .jsonDecodeError) := by
      unfold dispatchOne
      rw [h]
    unfold handle_tool_call
    rw [hd]
  · intro ps m h
    cases harg : tc.arguments with
    | none =>
      have hd : dispatchOne tc = ([], .error .jsonDecodeError) := by
        unfold dispatchOne
        rw [harg]
      rw [hd] at h
      simp at h
    | some args => exact ⟨args, rfl⟩

/-- Witness for claim C9: invalid JSON arguments raise even for the
recognized tool name `record_user_details`. -/
theorem claim_C9_witness :
    handle_tool_call [⟨"t4", "record_user_details", none⟩] =
      ([], .error .jsonDecodeError) :=
  (claim_C9_parse_before_lookup (ToolCall.mk "t4" "record_user_details" none)).1 rfl []

/-- Claim C4: when dispatch completes without an exception, each
tool-call request receives exactly one tool-role result message,
tagged with the originating call's id, in the order requested
(`Forall₂` pairs the requests and the results positionally), and the
chat loop appends the assistant message and these results to the
history before the next model invocation (the recursive call) runs. -/
theorem claim_C4_tool_results (tcs : List ToolCall) (ps : List String) (results : List Msg)
    (hh : handle_tool_call tcs = (ps, .ok results)) :
    List.Forall₂ (fun tc m => ∃ c, m = Msg.tool c tc.id) tcs results ∧
    results.length = tcs.length ∧
    (∀ (model : List Msg → ModelResponse) (n : Nat) (msgs : List Msg),
      (model msgs).finish_reason = "tool_calls" → (model msgs).tool_calls = tcs →
      chatLoop model (n + 1) msgs =
        (ps ++ (chatLoop model n
            (msgs ++ [Msg.assistant (model msgs).content tcs] ++ results)).1,
          (chatLoop model n
            (msgs ++ [Msg.assistant (model msgs).content tcs] ++ results)).2)) := by
  have hf := handle_tool_call_ok_shape tcs ps results hh
  refine ⟨hf, (List.Forall₂.length_eq hf).symm, ?_⟩
  intro model n msgs hfin htc
  have hstep := chatLoop_tool_step model n msgs ps results hfin (by rw [htc]; exact hh)
  rw [htc] at hstep
  exact hstep

/-- Witness for claim C4 at a concrete one-request dispatch. -/
theorem claim_C4_witness :
    List.Forall₂ (fun tc m => ∃ c, m = Msg.tool c tc.id)
      [ToolCall.mk "t9" "does_not_exist" (some [])]
      [Msg.tool (jsonDumps (PyVal.dict [])) "t9"] :=
  (claim_C4_tool_results [ToolCall.mk "t9" "does_not_exist" (some [])] []
    [Msg.tool (jsonDumps (PyVal.dict [])) "t9"] rfl).1

/-- Claim C2: over a listing whose recognized entries have pairwise
distinct base names and whose payloads match their extensions, the
loader succeeds, its keys are exactly the base names (the portion of
each filename before its first dot) of the recognized entries in
listing order, a `.pdf` entry maps to the concatenation of its
per-page extracted text, a `.txt` entry maps to its exact full
content, and entries with any other extension contribute nothing. -/
theorem claim_C2_loader_mapping (dir : List DirEntry)
    (hwf : ∀ e ∈ dir, wellFormedEntry e = true)
    (hnd : ((dir.filter recognizedB).map (fun e => baseName e.name)).Nodup) :
    ∃ m, loadAboutMe dir = .ok m ∧
      m.map Prod.fst = (dir.filter recognizedB).map (fun e => baseName e.name) ∧
      (∀ e ∈ dir, recognizedB e = true → dictGet (baseName e.name) m = some (extractOf e)) ∧
      (∀ e ∈ dir, ∀ pages, pyEndsWith e.name ".pdf" = true → e.data = FileData.pdfFile pages →
        dictGet (baseName e.name) m = some (String.join pages)) ∧
      (∀ e ∈ dir, ∀ c, pyEndsWith e.name ".pdf" = false → pyEndsWith e.name ".txt" = true →
        e.data = FileData.txtFile c → dictGet (baseName e.name) m = some c) := by
  obtain ⟨m, hgo, hkeys, hpres, hval⟩ :=
    loadGo_spec dir [] hwf hnd (fun e he hr => rfl)
  refine ⟨m, hgo, by simpa using hkeys, hval, ?_, ?_⟩
  · intro e he pages hpdf hdata
    have hr : recognizedB e = true := by simp [recognizedB, hpdf]
    rw [hval e he hr]
    simp [extractOf, hpdf, hdata]
  · intro e he c hpdf htxt hdata
    have hr : recognizedB e = true := by simp [recognizedB, htxt]
    rw [hval e he hr]
    simp [extractOf, hpdf, hdata]

/-- Witness for claim C2 on a listing with one file of each format. -/
theorem claim_C2_witness :
    ∃ m, loadAboutMe sampleDir = .ok m ∧
      m.map Prod.fst = (sampleDir.filter recognizedB).map (fun e => baseName e.name) ∧
      (∀ e ∈ sampleDir, recognizedB e = true →
        dictGet (baseName e.name) m = some (extractOf e)) ∧
      (∀ e ∈ sampleDir, ∀ pages, pyEndsWith e.name ".pdf" = true →
        e.data = FileData.pdfFile pages →
        dictGet (baseName e.name) m = some (String.join pages)) ∧
      (∀ e ∈ sampleDir, ∀ c, pyEndsWith e.name ".pdf" = false →
        pyEndsWith e.name ".txt" = true → e.data = FileData.txtFile c →
        dictGet (baseName e.name) m = some c) :=
  claim_C2_loader_mapping sampleDir (by decide) (by decide)

/-- Claim C3: the chat loop ends exactly when a response's termination
reason is not `"tool_calls"`, returning that response's content and
having sent nothing itself; and no iteration bound exists — for a
model whose every response has termination reason `"tool_calls"` the
loop never returns a terminal answer, and (when its dispatches keep
succeeding) it is still running after every amount of fuel. -/
theorem claim_C3_loop_termination (model : List Msg → ModelResponse) :
    (∀ msgs n, (model msgs).finish_reason ≠ "tool_calls" →
      chatLoop model (n + 1) msgs = ([], .ok (some (model msgs).content))) ∧
    ((∀ msgs, (model msgs).finish_reason = "tool_calls") →
      ∀ n msgs s, (chatLoop model n msgs).2 ≠ .ok (some s)) ∧
    ((∀ msgs, (model msgs).finish_reason = "tool_calls") →
      (∀ msgs, ∃ ps results, handle_tool_call (model msgs).tool_calls = (ps, .ok results)) →
      ∀ n msgs, (chatLoop model n msgs).2 = .ok none) := by
  refine ⟨fun msgs n h => chatLoop_terminal model n msgs h, ?_, ?_⟩
  · intro hall n
    induction n with
    | zero => intro msgs s h; simp [chatLoop] at h
    | succ n ih =>
      intro msgs s h
      rw [chatLoop] at h
      rw [if_pos (hall msgs)] at h
      cases hh : handle_tool_call (model msgs).tool_calls with
      | mk ps r =>
        rw [hh] at h
        cases r with
        | error er => simp at h
        | ok results => exact ih _ s h
  · intro hall hok n
    induction n with
    | zero => intro msgs; rfl
    | succ n ih =>
      intro msgs
      obtain ⟨ps, results, hh⟩ := hok msgs
      rw [chatLoop_tool_step model n msgs ps results (hall msgs) hh]
      exact ih _

/-- Witness for claim C3: a terminal-first model returns its content;
a permanently tool-calling model has produced no answer after five
iterations of fuel. -/
theorem claim_C3_witness :
    chatLoop stopModel 1 [] = ([], .ok (some "hi")) ∧
    (chatLoop loopModel 5 []).2 = .ok none := by
  constructor
  · exact (claim_C3_loop_termination stopModel).1 [] 0 (by decide)
  · exact (claim_C3_loop_termination loopModel).2.2 (fun _ => rfl)
      (fun _ => ⟨[], [Msg.tool (jsonDumps (PyVal.dict [])) "t1"], rfl⟩) 5 []

/-- Claim C5: on an empty history, when the model's first response is
terminal (termination reason other than `"tool_calls"`), `chat`
returns exactly that response's content and no notification is sent
(the push list is empty). -/
theorem claim_C5_terminal_first_response (a : AboutMe) (model : List Msg → ModelResponse)
    (n : Nat) (message : String)
    (h : (model [Msg.system a.system_prompt, Msg.user message]).finish_reason ≠ "tool_calls") :
    a.chat model (n + 1) message [] =
      ([], .ok (some (model [Msg.system a.system_prompt, Msg.user message]).content)) := by
  unfold AboutMe.chat
  exact chatLoop_terminal model n _ h

/-- Witness for claim C5 at a concrete instance and model. -/
theorem claim_C5_witness :
    sampleAbout.chat stopModel 1 "hey" [] = ([], .ok (some "hi")) :=
  claim_C5_terminal_first_response sampleAbout stopModel 0 "hey" (by decide)

/-- Claim C6: every `record_user_details` call produces exactly one
notification, its message contains the email and the notes, the
function returns the acknowledgment `{"recorded": "ok"}`, and the
message is the fixed header fields followed by exactly the
caller-supplied summary — the function itself puts no name or email
into the summary field, so a string absent from the supplied
`details` is absent from the summary part of the notification. -/
theorem claim_C6_record_user_details (cid em nm nt dt : String) :
    ∃ msg, record_user_details cid em nm nt dt = ([msg], .dict [("recorded", "ok")]) ∧
      strContains msg em = true ∧
      strContains msg nt = true ∧
      msg = recordUserHeader nm cid em nt ++ dt ∧
      (∀ pii : String, strContains dt pii = false →
        ∃ summary, msg = recordUserHeader nm cid em nt ++ summary ∧
          strContains summary pii = false) := by
  refine ⟨recordUserHeader nm cid em nt ++ dt, rfl, ?_, ?_, rfl, fun pii h => ⟨dt, rfl, h⟩⟩
  · apply strContains_appendR
    unfold recordUserHeader
    apply strContains_appendR
    apply strContains_appendR
    apply strContains_appendR
    apply strContains_appendL
    exact strContains_refl em
  · apply strContains_appendR
    unfold recordUserHeader
    apply strContains_appendR
    apply strContains_appendL
    exact strContains_refl nt

/-- Witness for claim C6: at a concrete call, the one notification
decomposes as header plus summary and a string not occurring in the
supplied details does not occur in the summary. -/
theorem claim_C6_witness :
    ∃ msg, record_user_details "1" "a@b.c" "Bob" "nb" "sum" =
        ([msg], .dict [("recorded", "ok")]) ∧
      ∃ summary, msg = recordUserHeader "Bob" "1" "a@b.c" "nb" ++ summary ∧
        strContains summary "a@b.c" = false := by
  obtain ⟨msg, h1, _, _, _, h5⟩ := claim_C6_record_user_details "1" "a@b.c" "Bob" "nb" "sum"
  exact ⟨msg, h1, h5 "a@b.c" (by decide)⟩

theorem foldl_docSections (docs : List (String × String)) : ∀ init : String,
    docs.foldl (fun acc kv => acc ++ docSection kv) init = init ++ docSections docs := by
  induction docs with
  | nil => intro init; simp [docSections]
  | cons kv rest ih =>
    intro init
    simp only [List.foldl_cons, docSections]
    rw [ih (init ++ docSection kv), String.append_assoc]

theorem docSections_mem_split (docs : List (String × String)) (kv : String × String)
    (h : kv ∈ docs) : ∃ x y, docSections docs = x ++ (docSection kv ++ y) := by
  induction docs with
  | nil => cases h
  | cons hd tl ih =>
    rcases List.mem_cons.mp h with h | h
    · refine ⟨"", docSections tl, ?_⟩
      rw [String.empty_append, h]
      rfl
    · obtain ⟨x, y, hxy⟩ := ih h
      exact ⟨docSection hd ++ x, y, by
        show docSection hd ++ docSections tl = docSection hd ++ x ++ (docSection kv ++ y)
        rw [hxy, String.append_assoc]⟩

/-- Claim C7: the system prompt is exactly the fixed persona/policy
text, followed by one section per loaded document in order, followed
by the conversation-id line; and for each loaded document the prompt
contains — after the persona text — a section labeled with the
document's key holding its full text verbatim. -/
theorem claim_C7_prompt_sections (a : AboutMe) :
    a.system_prompt =
      promptHeader a.first_name a.last_name ++ docSections a.about_me ++
        ("conversation_id = " ++ a.conversation_id) ∧
    ∀ kv ∈ a.about_me, ∃ s t, a.system_prompt =
      promptHeader a.first_name a.last_name ++
        (s ++ (("\n\n## " ++ kv.1 ++ ":\n" ++ kv.2 ++ "\n") ++ t)) := by
  have hmain : a.system_prompt =
      promptHeader a.first_name a.last_name ++ docSections a.about_me ++
        ("conversation_id = " ++ a.conversation_id) := by
    unfold AboutMe.system_prompt
    rw [foldl_docSections]
  refine ⟨hmain, ?_⟩
  intro kv hkv
  obtain ⟨x, y, hxy⟩ := docSections_mem_split a.about_me kv hkv
  refine ⟨x, y ++ ("conversation_id = " ++ a.conversation_id), ?_⟩
  rw [hmain, hxy]
  have hds : docSection kv = "\n\n## " ++ kv.1 ++ ":\n" ++ kv.2 ++ "\n" := rfl
  rw [← hds]
  simp only [String.append_assoc]

/-- An instance holding two loaded documents, for the C7 witness. -/
def sampleDocsAbout : AboutMe :=
  { first_name := "Piotr", last_name := "Kowalczyk", conversation_id := "7",
    about_me := [("resume", "R"), ("bio", "B")] }

/-- Witness for claim C7: the `bio` document appears as a labeled
verbatim section after the persona text. -/
theorem claim_C7_witness :
    ∃ s t, sampleDocsAbout.system_prompt =
      promptHeader sampleDocsAbout.first_name sampleDocsAbout.last_name ++
        (s ++ (("\n\n## " ++ "bio" ++ ":\n" ++ "B" ++ "\n") ++ t)) :=
  (claim_C7_prompt_sections sampleDocsAbout).2 ("bio", "B") (by decide)

/-- Claim C8, counterexample: with the `name` argument omitted, the
value bound for `name` — and sent in the notification — is the code's
default `"Name not provided"`, not the `"not provided"` stated by the
claim. -/
theorem claim_C8_counterexample :
    bindRecordUserDetails [("conversation_id", "1"), ("email", "a@b.c"), ("details", "d")] =
      .ok ⟨"1", "a@b.c", "Name not provided", "Not provided", "d"⟩ ∧
    ("Name not provided" : String) ≠ "not provided" ∧
    (handle_tool_call [ToolCall.mk "t1" "record_user_details"
        (some [("conversation_id", "1"), ("email", "a@b.c"), ("details", "d")])]).1 =
      ["New user provided e-mail address: Name not provided in conversation 1\nEmail: a@b.c\nNotes: Not provided\ndetails (PII removed): d"] :=
  ⟨rfl, by decide, rfl⟩

/-- Claim C8, amended: when the optional `name` argument is omitted,
the value used for the name — and appearing in the notification — is
the default `"Name not provided"`. -/
theorem claim_C8_default_name (args : List (String × String)) (r : RUDArgs)
    (hname : dictGet "name" args = none)
    (hbind : bindRecordUserDetails args = .ok r) :
    r.name = "Name not provided" ∧
    (record_user_details r.conversation_id r.email r.name r.notes r.details).1 =
      [recordUserHeader "Name not provided" r.conversation_id r.email r.notes ++ r.details] := by
  unfold bindRecordUserDetails at hbind
  split at hbind
  · cases hc : dictGet "conversation_id" args with
    | none =>
      simp only [hc] at hbind
      cases hbind
    | some cid =>
      cases he : dictGet "email" args with
      | none =>
        simp only [hc, he] at hbind
        cases hbind
      | some em =>
        simp only [hc, he, hname, Option.getD_none, Except.ok.injEq] at hbind
        cases hbind
        exact ⟨rfl, rfl⟩
  · cases hbind

/-- Witness for the amended claim C8 at a concrete argument dict
without a `name` key. -/
theorem claim_C8_witness :
    (RUDArgs.mk "1" "e@x" "Name not provided" "Not provided" "d").name = "Name not provided" ∧
    (record_user_details "1" "e@x" "Name not provided" "Not provided" "d").1 =
      [recordUserHeader "Name not provided" "1" "e@x" "Not provided" ++ "d"] :=
  claim_C8_default_name [("conversation_id", "1"), ("email", "e@x"), ("details", "d")]
    (RUDArgs.mk "1" "e@x" "Name not provided" "Not provided" "d") rfl rfl

/-- A model that, on the initial two-message history, requests one
`record_details` call passing `conversation_id := "42"` (ignoring the
id the prompt supplies), then gives a terminal answer. -/
def chattyModel : List Msg → ModelResponse := fun msgs =>
  if msgs.length = 2 then
    ⟨"tool_calls", "",
      [ToolCall.mk "c1" "record_details"
        (some [("conversation_id", "42"), ("details", "x")])]⟩
  else ⟨"stop", "done", []⟩

/-- Claim C10, counterexample: the tool functions interpolate the
`conversation_id` argument supplied by the model, which nothing forces
to equal the instance's identifier — a chat of the instance with
conversation id `"7"` produces a notification that does not carry
`"7"` anywhere. -/
theorem claim_C10_counterexample :
    AboutMe.init 7 [] = .ok sampleAbout ∧
    sampleAbout.conversation_id = "7" ∧
    sampleAbout.chat chattyModel 2 "hi" [] =
      (["Details of chat in conversation 42\nUnanswered questions: \ndetails (PII removed): x"],
        .ok (some "done")) ∧
    strContains
      "Details of chat in conversation 42\nUnanswered questions: \ndetails (PII removed): x"
      "7" = false :=
  ⟨rfl, rfl, rfl, by decide⟩

/-- Claim C10, amended: the conversation identifier is fixed at
construction as the decimal string of the drawn integer and every
system prompt ends with it; each tool-function notification carries
the `conversation_id` argument of that call — which the prompt
instructs, but the code does not force, to be the instance's
identifier. -/
theorem claim_C10_conversation_id (r : Nat) (dir : List DirEntry) (a : AboutMe)
    (_hr : 1 ≤ r ∧ r ≤ 1000) (hinit : AboutMe.init r dir = .ok a) :
    a.conversation_id = toString r ∧
    (∃ s, a.system_prompt = s ++ ("conversation_id = " ++ a.conversation_id)) ∧
    (∀ cid dt qs, ∃ msg, (record_details cid dt qs).1 = [msg] ∧
      strContains msg cid = true) ∧
    (∀ cid em nm nt dt, ∃ msg, (record_user_details cid em nm nt dt).1 = [msg] ∧
      strContains msg cid = true) := by
  unfold AboutMe.init at hinit
  cases hl : loadAboutMe dir with
  | error er =>
    rw [hl] at hinit
    cases hinit
  | ok docs =>
    rw [hl] at hinit
    cases hinit
    refine ⟨rfl, ⟨_, rfl⟩, ?_, ?_⟩
    · intro cid dt qs
      refine ⟨_, rfl, ?_⟩
      apply strContains_appendR
      apply strContains_appendR
      apply strContains_appendR
      apply strContains_appendR
      apply strContains_appendL
      exact strContains_refl cid
    · intro cid em nm nt dt
      refine ⟨_, rfl, ?_⟩
      apply strContains_appendR
      apply strContains_appendR
      apply strContains_appendR
      apply strContains_appendR
      apply strContains_appendR
      apply strContains_appendR
      apply strContains_appendL
      exact strContains_refl cid

/-- Witness for the amended claim C10 at `r = 7` and an empty
directory. -/
theorem claim_C10_witness :
    sampleAbout.conversation_id = toString 7 ∧
    (∃ s, sampleAbout.system_prompt =
      s ++ ("conversation_id = " ++ sampleAbout.conversation_id)) := by
  have h := claim_C10_conversation_id 7 [] sampleAbout (by decide) rfl
  exact ⟨h.1, h.2.1⟩
